import Mathlib

/-!
Verification of the weather-data-collector-spain report tools.

This file gives a shallow embedding, in Lean 4, of the two Python scripts of
the repository:

* `scripts/python/audit_municipal_forecast_coverage.py` — the coverage
  auditor, which compares a reference set of municipality identifiers
  against a forecast dataset, subtracting a static expected-absent set;
* `scripts/python/summarize_barcelona_datasets.py` — the dataset
  summarizer, which scans daily / hourly / forecast CSV files and reports
  row counts, date ranges and per-day aggregates.

Python strings are modelled as Lean `String` (in this toolchain a `String`
is a list of characters, and both languages order strings lexicographically
by code point).  A CSV row, as produced by `csv.DictReader`, is modelled as
an association list from column names to values; `dict.get` is `rowGet`.
Python `set` becomes `Finset`, Python `dict` (insertion-ordered, unique
keys) becomes an association list, and `sys.exit` / early termination is
modelled with `Except`.  File-system state is passed explicitly: a path
either resolves to a parsed file or to nothing (file absent).
-/

/-! ## Python string primitives -/

/-- The ASCII whitespace characters stripped by Python's `str.strip()`. -/
def pyIsSpace (c : Char) : Bool :=
  c = ' ' || c = '\t' || c = '\n' || c = '\r' || c = '\x0b' || c = '\x0c'

/-- Python `str.strip()`: drop leading and trailing whitespace. -/
def pyStrip (s : String) : String :=
  String.mk (((s.toList.dropWhile pyIsSpace).reverse.dropWhile pyIsSpace).reverse)

/-- Python `str.zfill(width)`: left-pad with `'0'` to `width` characters,
keeping a leading sign character in front of the padding. -/
def pyZfill (s : String) (width : Nat) : String :=
  match s.toList with
  | [] => String.mk (List.replicate width '0')
  | c :: rest =>
      if c = '+' || c = '-' then
        String.mk (c :: (List.replicate (width - (c :: rest).length) '0' ++ rest))
      else
        String.mk (List.replicate (width - (c :: rest).length) '0' ++ (c :: rest))

/-- Python slicing `s[:n]` on a string. -/
def pySlice (s : String) (n : Nat) : String :=
  String.mk (s.toList.take n)

/-! ## CSV rows and files -/

/-- A row as produced by `csv.DictReader`: an association list from column
names to cell values. -/
abbrev Row := List (String × String)

/-- Python `row.get(key)`: the value at `key`, or `none` when absent. -/
def rowGet : Row → String → Option String
  | [], _ => none
  | (k', v) :: rest, k => if k' = k then some v else rowGet rest k

/-- Python truthiness of an optional string: `none` and `""` are falsy.
`truthy o` is `some s` exactly when `o` holds a non-empty string `s`. -/
def truthy : Option String → Option String
  | none => none
  | some s => if s = "" then none else some s

/-- A parsed CSV file: the header (`csv.DictReader.fieldnames`, `none` for
an empty file) and the data rows. -/
structure CsvFile where
  fieldnames : Option (List String)
  rows : List Row
deriving DecidableEq

/-! ## Coverage auditor: static configuration

The two static identifier groups of
`audit_municipal_forecast_coverage.py`, transcribed verbatim. -/

/-- `NEW_MUNICIPIOS`: newly created municipalities not yet in forecasts. -/
def NEW_MUNICIPIOS : Finset String :=
  {"11903", "14901", "14902", "18077", "21902", "41904"}

/-- `COMMUNAL_CODES`: communal (non-municipal aggregate) codes. -/
def COMMUNAL_CODES : Finset String :=
  {"53000", "53001", "53002", "53003", "53004", "53005", "53006", "53007",
   "53008", "53009", "53010", "53011", "53012", "53013", "53014", "53015",
   "53016", "53017", "53018", "53019", "53020", "53021", "53022", "53023",
   "53024", "53025", "53026", "53027", "53028", "53029", "53031", "53032",
   "53033", "53034", "53035", "53036", "53037", "53038", "53039", "53040",
   "53041", "53042", "53043", "53044", "53045", "53046", "53047", "53048",
   "53049", "53050", "53051", "53052", "53053", "53054", "53055", "53056",
   "53057", "53058", "53059", "53060", "53061", "53062", "53063", "53064",
   "53065", "53066", "53067", "53068", "53069", "53070", "53071", "53072",
   "53073", "53074", "53075", "53076", "53077", "53078", "53080", "53081",
   "53083", "54001", "54002", "54003", "54004", "54005"}

/-- `EXPECTED_ABSENT = NEW_MUNICIPIOS | COMMUNAL_CODES`. -/
def EXPECTED_ABSENT : Finset String := NEW_MUNICIPIOS ∪ COMMUNAL_CODES

/-! ## Coverage auditor: loading -/

/-- `load_reference_ids`: fail (exit 2) when the file is absent or the
header lacks `CUMUN`; otherwise collect each non-empty stripped `CUMUN`
value, zero-padded to width 5, into a set. -/
def load_reference_ids (path : String) (file : Option CsvFile) :
    Except (String × Nat) (Finset String) :=
  match file with
  | none => .error ("ERROR: reference file not found: " ++ path, 2)
  | some f =>
      match f.fieldnames with
      | none => .error ("ERROR: reference file missing CUMUN header", 2)
      | some names =>
          if "CUMUN" ∈ names then
            .ok (f.rows.foldl (fun acc row =>
              match rowGet row "CUMUN" with
              | none => acc
              | some raw =>
                  let stripped := pyStrip raw
                  if stripped = "" then acc
                  else insert (pyZfill stripped 5) acc) ∅)
          else .error ("ERROR: reference file missing CUMUN header", 2)

/-- `load_forecast_ids`: fail (exit 2) when the file is absent or the
header lacks `municipio_id`; otherwise collect each truthy `municipio_id`
value verbatim into a set. -/
def load_forecast_ids (path : String) (file : Option CsvFile) :
    Except (String × Nat) (Finset String) :=
  match file with
  | none => .error ("ERROR: forecast file not found: " ++ path, 2)
  | some f =>
      match f.fieldnames with
      | none => .error ("ERROR: forecast file missing municipio_id header", 2)
      | some names =>
          if "municipio_id" ∈ names then
            .ok (f.rows.foldl (fun acc row =>
              match truthy (rowGet row "municipio_id") with
              | none => acc
              | some mid => insert mid acc) ∅)
          else .error ("ERROR: forecast file missing municipio_id header", 2)

/-! ## Coverage auditor: main -/

/-- `missing = sorted(ref_ids - forecast_ids - EXPECTED_ABSENT)`. -/
def missingList (ref_ids forecast_ids : Finset String) : List String :=
  ((ref_ids \ forecast_ids) \ EXPECTED_ABSENT).sort (· ≤ ·)

/-- `unexpected_present = sorted(forecast_ids & EXPECTED_ABSENT)`. -/
def unexpectedList (forecast_ids : Finset String) : List String :=
  (forecast_ids ∩ EXPECTED_ABSENT).sort (· ≤ ·)

/-- The file-system state seen by the auditor: the two configured paths and
what each currently resolves to (`none` = the file does not exist). -/
structure World where
  refPath : String
  refFile : Option CsvFile
  forecastPath : String
  forecastFile : Option CsvFile

/-- Observable outcome of one auditor run: stdout lines, stderr lines and
the process exit status. -/
structure RunResult where
  stdout : List String
  stderr : List String
  exitCode : Nat
deriving DecidableEq

/-- The auditor's `main`, with `sys.exit(2)` inside the loaders modelled by
the `Except` error branch terminating the whole run. -/
def auditMain (w : World) : RunResult :=
  match load_reference_ids w.refPath w.refFile with
  | .error (msg, code) => ⟨[], [msg], code⟩
  | .ok ref_ids =>
      match load_forecast_ids w.forecastPath w.forecastFile with
      | .error (msg, code) => ⟨[], [msg], code⟩
      | .ok forecast_ids =>
          let missing := missingList ref_ids forecast_ids
          let unexpected := unexpectedList forecast_ids
          let countLines :=
            ["Reference municipalities: " ++ toString ref_ids.card,
             "Forecast municipalities: " ++ toString forecast_ids.card,
             "Ignored IDs (expected absent): " ++ toString EXPECTED_ABSENT.card]
          let warnLines :=
            if unexpected = [] then []
            else ["WARNING: expected-absent IDs present in forecast data: " ++
                    String.intercalate ", " unexpected]
          if missing = [] then
            ⟨countLines ++ warnLines ++
               ["Municipal forecast coverage OK (excluding expected gaps)."],
             [], 0⟩
          else
            ⟨countLines ++ warnLines ++
               ["ERROR: " ++ toString missing.length ++
                  " reference municipios missing from forecasts.",
                "Sample missing IDs: " ++
                  String.intercalate ", " (missing.take 20) ++
                  (if missing.length > 20 then "..." else "")],
             [], 1⟩

/-- The condition under which `load_reference_ids` terminates the run: the
reference file does not exist, or its header lacks the `CUMUN` column. -/
def refFileBad : Option CsvFile → Bool
  | none => true
  | some f =>
      match f.fieldnames with
      | none => true
      | some names => if "CUMUN" ∈ names then false else true

/-! ## Python string comparison

Python compares strings lexicographically by code point.  The toolchain's
built-in `String` comparison does not reduce definitionally, so the
embedding carries its own structural implementation, proved equivalent to
the `LinearOrder String` relation used in the statements. -/

/-- Lexicographic strict comparison of character lists (Python `<`). -/
def pyStrLtB : List Char → List Char → Bool
  | [], [] => false
  | [], _ :: _ => true
  | _ :: _, [] => false
  | x :: xs, y :: ys => if x < y then true else if y < x then false else pyStrLtB xs ys

theorem pyStrLtB_iff : ∀ l₁ l₂ : List Char, pyStrLtB l₁ l₂ = true ↔ List.Lex (· < ·) l₁ l₂
  | [], [] => by simp [pyStrLtB]
  | [], _ :: _ => by simp [pyStrLtB]; exact List.Lex.nil
  | _ :: _, [] => by simp [pyStrLtB]
  | x :: xs, y :: ys => by
    rcases lt_trichotomy x y with h | h | h
    · simp [pyStrLtB, h]
      exact List.Lex.rel h
    · subst h
      simp [pyStrLtB, lt_irrefl, pyStrLtB_iff xs ys]
      constructor
      · exact List.Lex.cons
      · intro hl
        cases hl with
        | cons h => exact h
        | rel h => exact absurd h (lt_irrefl x)
    · simp [pyStrLtB, h, not_lt_of_gt h]
      intro hl
      cases hl with
        | cons hc => exact absurd rfl (ne_of_gt h)
        | rel hr => exact absurd hr (not_lt_of_gt h)

/-- Python `a < b` on strings. -/
def pyLt (a b : String) : Bool := pyStrLtB a.toList b.toList

theorem pyLt_iff (a b : String) : pyLt a b = true ↔ a < b := by
  rw [String.lt_iff_toList_lt, pyLt, pyStrLtB_iff]
  exact Iff.rfl

theorem pyLt_eq_false_iff (a b : String) : pyLt a b = false ↔ b ≤ a := by
  rw [← not_lt, ← pyLt_iff, Bool.not_eq_true]

/-! ## Running min / max trackers

`min_date = date_val if min_date is None or date_val < min_date else
min_date` and its `max` / `collected_at` counterparts, as one-step update
functions on the running optional value. -/

/-- One update of a running minimum (`date_val < min_date` branch). -/
def pyMinFold (m : Option String) (d : String) : Option String :=
  match m with
  | none => some d
  | some m' => some (if pyLt d m' then d else m')

/-- One update of a running maximum (`date_val > max_date` branch; also the
shape of the `collected_at` update `ca > collected_at`). -/
def pyMaxFold (m : Option String) (d : String) : Option String :=
  match m with
  | none => some d
  | some m' => some (if pyLt m' d then d else m')

/-! ## Python dicts

A `dict` (or `defaultdict`) with string keys: an insertion-ordered
association list with unique keys.  `dictGet` is subscript access with a
default, `dictUpd` is `d[k] = f(d.get(k, dflt))`, appending new keys at the
end as Python insertion order does. -/

/-- Lookup with default. -/
def dictGet {β : Type} : List (String × β) → String → β → β
  | [], _, dflt => dflt
  | (k', v) :: rest, k, dflt => if k = k' then v else dictGet rest k dflt

/-- Update the value at `k` through `f`, starting from `dflt` when `k` is
not yet a key (the `defaultdict` access pattern). -/
def dictUpd {β : Type} : List (String × β) → String → (β → β) → β → List (String × β)
  | [], k, f, dflt => [(k, f dflt)]
  | (k', v) :: rest, k, f, dflt =>
      if k = k' then (k', f v) :: rest else (k', v) :: dictUpd rest k f dflt

/-! ## Summarizer: files on disk

A dataset file as the summarizer sees it: an on-disk format plus the
logical CSV content obtained when the file is decoded with the decoder
matching its format. -/

/-- On-disk format of a dataset file. -/
inductive FileFormat
  | gzipped
  | plain
deriving DecidableEq

/-- A dataset file on disk. -/
structure DiskFile where
  format : FileFormat
  csv : CsvFile
deriving DecidableEq

/-- Modelled from the spec: `gzip.open(path, "rt")`, the library decoder
for compressed text (its source is outside this repository).  Per the
spec, compressed-text decoding is attempted and fails (an `OSError`) when
the file's format is not gzip; on a gzip file it yields the decoded
content. -/
def gzipOpen (f : DiskFile) : Except Unit CsvFile :=
  if f.format = FileFormat.gzipped then .ok f.csv else .error ()

/-- `open_text`: try `gzip.open`, falling back to plain `open` on
`OSError`.  The fallback branch reads the file as plain text, which on the
(plain) files that reach it yields their content. -/
def open_text (f : DiskFile) : CsvFile :=
  match gzipOpen f with
  | .ok handle => handle
  | .error _ => f.csv

/-! ## Summarizer: daily / hourly scans

`summarise_daily_file` and `summarise_hourly_file` run the same row scan,
differing only in the column names, in which value is min/max-tracked and
in how the per-day key is derived from it (`fint[:10]` for hourly).  The
scan state carries the `defaultdict(set)` of per-day distinct keys, the
running min/max and the row counter. -/

/-- Running state of a daily/hourly scan. -/
structure StationState where
  per_day : List (String × Finset (Option String))
  min_val : Option String
  max_val : Option String
  rows : Nat

/-- One loop iteration of `summarise_daily_file` / `summarise_hourly_file`:
count the row; skip falsy date values; otherwise add the (possibly absent)
station value to the day's set and update the running min/max over the raw
date value. -/
def stationStep (date_col station_col : String) (dayOf : String → String)
    (st : StationState) (row : Row) : StationState :=
  match truthy (rowGet row date_col) with
  | none => { st with rows := st.rows + 1 }
  | some v =>
      { per_day := dictUpd st.per_day (dayOf v) (fun s => insert (rowGet row station_col) s) ∅
        min_val := pyMinFold st.min_val v
        max_val := pyMaxFold st.max_val v
        rows := st.rows + 1 }

/-- The whole scan over the rows of a file. -/
def stationScan (date_col station_col : String) (dayOf : String → String)
    (rows : List Row) : StationState :=
  rows.foldl (stationStep date_col station_col dayOf) ⟨[], none, none, 0⟩

/-- Result of `summarise_daily_file`: `per_day_counts` maps each day to
`len` of its distinct-station set. -/
structure DailySummary where
  rows : Nat
  min_date : Option String
  max_date : Option String
  per_day_counts : List (String × Nat)
deriving DecidableEq

/-- `summarise_daily_file(path, date_col, station_col)`. -/
def summarise_daily_file (f : DiskFile) (date_col station_col : String) : DailySummary :=
  let st := stationScan date_col station_col (fun v => v) (open_text f).rows
  ⟨st.rows, st.min_val, st.max_val, st.per_day.map (fun p => (p.1, p.2.card))⟩

/-- Result of `summarise_hourly_file`. -/
structure HourlySummary where
  rows : Nat
  min_ts : Option String
  max_ts : Option String
  per_day_counts : List (String × Nat)
deriving DecidableEq

/-- `summarise_hourly_file(path)`: fixed columns `fint` / `idema`, the day
is `fint[:10]`, min/max are tracked over the full timestamp. -/
def summarise_hourly_file (f : DiskFile) : HourlySummary :=
  let st := stationScan "fint" "idema" (fun v => pySlice v 10) (open_text f).rows
  ⟨st.rows, st.min_val, st.max_val, st.per_day.map (fun p => (p.1, p.2.card))⟩

/-! ## Summarizer: forecast scan -/

/-- Running state of a forecast scan. -/
structure ForecastState where
  per_day : List (String × Nat)
  min_date : Option String
  max_date : Option String
  collected_at : Option String
  rows : Nat
deriving DecidableEq

/-- One loop iteration of `summarise_forecast`: count the row; on a truthy
`fecha` bump that day's row count and the min/max; independently, on a
truthy `collected_at` greater than the running value, replace it. -/
def forecastStep (st : ForecastState) (row : Row) : ForecastState :=
  let st1 : ForecastState :=
    match truthy (rowGet row "fecha") with
    | none => { st with rows := st.rows + 1 }
    | some d =>
        { per_day := dictUpd st.per_day d (fun n => n + 1) 0
          min_date := pyMinFold st.min_date d
          max_date := pyMaxFold st.max_date d
          collected_at := st.collected_at
          rows := st.rows + 1 }
  match truthy (rowGet row "collected_at") with
  | none => st1
  | some ca => { st1 with collected_at := pyMaxFold st1.collected_at ca }

/-- The whole forecast scan. -/
def forecastScan (rows : List Row) : ForecastState :=
  rows.foldl forecastStep ⟨[], none, none, none, 0⟩

/-- Result of `summarise_forecast`. -/
structure ForecastSummary where
  rows : Nat
  min_date : Option String
  max_date : Option String
  latest_collected_at : Option String
  per_day_rows : List (String × Nat)
deriving DecidableEq

/-- `summarise_forecast(path)`. -/
def summarise_forecast (f : DiskFile) : ForecastSummary :=
  let st := forecastScan (open_text f).rows
  ⟨st.rows, st.min_date, st.max_date, st.collected_at, st.per_day⟩

/-! ## Summarizer: report printing and main -/

/-- One `key: value` stdout line, omitted when the value is `None`. -/
def optLine (key : String) : Option String → List String
  | none => []
  | some v => [key ++ ": " ++ v]

/-- The per-day block of `emit_summary`: nothing when the dict is empty,
otherwise the labelled header and the last `last_n` entries of the
key-sorted items. -/
def perDayBlock (label : String) (per_day : List (String × Nat)) (last_n : Nat) :
    List String :=
  if per_day = [] then []
  else
    let sortedItems := per_day.mergeSort (fun a b => !(pyLt b.1 a.1))
    let recent := sortedItems.drop (sortedItems.length - last_n)
    (label ++ " (last " ++ toString recent.length ++ " days):") ::
      recent.map (fun p => "  " ++ p.1 ++ ": " ++ toString p.2)

/-- `emit_summary` on a daily-kind stats dict: header, `rows`, the present
date bounds, the `stations_per_day` block, blank separator. -/
def emit_daily (title : String) (s : DailySummary) : List String :=
  ("=== " ++ title ++ " ===") ::
    ("rows: " ++ toString s.rows) ::
    (optLine "min_date" s.min_date ++ optLine "max_date" s.max_date ++
      perDayBlock "stations_per_day" s.per_day_counts 7 ++ [""])

/-- `emit_summary` on an hourly-kind stats dict. -/
def emit_hourly (title : String) (s : HourlySummary) : List String :=
  ("=== " ++ title ++ " ===") ::
    ("rows: " ++ toString s.rows) ::
    (optLine "min_ts" s.min_ts ++ optLine "max_ts" s.max_ts ++
      perDayBlock "stations_per_day" s.per_day_counts 7 ++ [""])

/-- `emit_summary` on a forecast-kind stats dict. -/
def emit_forecast (title : String) (s : ForecastSummary) : List String :=
  ("=== " ++ title ++ " ===") ::
    ("rows: " ++ toString s.rows) ::
    (optLine "min_date" s.min_date ++ optLine "max_date" s.max_date ++
      optLine "latest_collected_at" s.latest_collected_at ++
      perDayBlock "rows_per_day" s.per_day_rows 7 ++ [""])

/-- A summarizer target: the caller-supplied label, the configured path and
what the path resolves to on disk (`none` = the file does not exist). -/
abbrev Target := String × String × Option DiskFile

/-- One iteration of the summarizer's `main` loop: a missing file prints
the header, a `File not found` notice and a blank line and moves on;
otherwise the label prefix picks the scan and its summary is emitted. -/
def summarizeTarget (t : Target) : List String :=
  match t.2.2 with
  | none => ["=== " ++ t.1 ++ " ===", "File not found: " ++ t.2.1, ""]
  | some f =>
      if t.1.startsWith "Hourly" then emit_hourly t.1 (summarise_hourly_file f)
      else if t.1.startsWith "Forecast" then emit_forecast t.1 (summarise_forecast f)
      else emit_daily t.1 (summarise_daily_file f "fecha" "indicativo")

/-- The summarizer's `main`: process every target in the given order; the
script never calls `sys.exit`, so the process exit status is always 0. -/
def summarizeMain (targets : List Target) : List String × Nat :=
  ((targets.map summarizeTarget).flatten, 0)

/-! ## Supporting lemmas: normalization -/

theorem isDigit_not_pyIsSpace (c : Char) (h : c.isDigit = true) : pyIsSpace c = false := by
  simp only [Char.isDigit, Bool.and_eq_true, decide_eq_true_eq] at h
  simp only [pyIsSpace, Bool.or_eq_false_iff, decide_eq_false_iff_not]
  refine ⟨⟨⟨⟨⟨?_, ?_⟩, ?_⟩, ?_⟩, ?_⟩, ?_⟩ <;> rintro rfl <;> exact absurd h.1 (by decide)

theorem dropWhile_pyIsSpace_of_digits (l : List Char) (h : ∀ c ∈ l, c.isDigit = true) :
    l.dropWhile pyIsSpace = l := by
  cases l with
  | nil => rfl
  | cons c cs =>
      rw [List.dropWhile_cons, isDigit_not_pyIsSpace c (h c (List.mem_cons_self c cs))]
      simp

theorem pyStrip_of_digits (s : String) (h : ∀ c ∈ s.toList, c.isDigit = true) :
    pyStrip s = s := by
  rw [pyStrip, dropWhile_pyIsSpace_of_digits _ h,
    dropWhile_pyIsSpace_of_digits _ (fun c hc => h c (List.mem_reverse.mp hc)),
    List.reverse_reverse]
  exact String.asString_toList s

theorem pyZfill_of_digits (s : String) (h5 : s.length = 5)
    (h : ∀ c ∈ s.toList, c.isDigit = true) : pyZfill s 5 = s := by
  cases hl : s.toList with
  | nil =>
      exact absurd h5 (by rw [show s.length = s.toList.length from rfl, hl]; decide)
  | cons c cs =>
      have hc : c.isDigit = true := h c (hl ▸ List.mem_cons_self c cs)
      have hplus : (c = '+' || c = '-') = false := by
        simp only [Char.isDigit, Bool.and_eq_true, decide_eq_true_eq] at hc
        simp only [Bool.or_eq_false_iff, decide_eq_false_iff_not]
        constructor <;> rintro rfl <;> exact absurd hc.1 (by decide)
      have hlen : (c :: cs).length = 5 := by
        rw [← hl, ← show s.length = s.toList.length from rfl]; exact h5
      rw [pyZfill, hl]
      simp only [hplus, Bool.false_eq_true, if_false, hlen, Nat.sub_self,
        List.replicate_zero, List.nil_append]
      rw [← hl]
      exact String.asString_toList s

/-- The auditor's identifier normalization: `raw.strip().zfill(5)`
(`load_reference_ids`, line `ids.add(stripped.zfill(5))`). -/
def normalizeId (s : String) : String := pyZfill (pyStrip s) 5

/-! ## Claim theorems: auditor -/

/-- Claim C1: for every reference set `R` and forecast set `F`, with the
static expected-absent set, the auditor computes
`missing = (R − F) − EXPECTED_ABSENT` and
`unexpected_present = F ∩ EXPECTED_ABSENT`, both sorted ascending; hence an
identifier in both `R` and `EXPECTED_ABSENT` is never in `missing`,
whatever `F` is. -/
theorem auditor_reconciliation (R F : Finset String) :
    missingList R F = ((R \ F) \ EXPECTED_ABSENT).sort (· ≤ ·) ∧
    unexpectedList F = (F ∩ EXPECTED_ABSENT).sort (· ≤ ·) ∧
    List.Sorted (· ≤ ·) (missingList R F) ∧
    List.Sorted (· ≤ ·) (unexpectedList F) ∧
    ∀ x, x ∈ R → x ∈ EXPECTED_ABSENT → x ∉ missingList R F := by
  refine ⟨rfl, rfl, Finset.sort_sorted _ _, Finset.sort_sorted _ _, ?_⟩
  intro x _ hE hmem
  rw [missingList, Finset.mem_sort] at hmem
  exact (Finset.mem_sdiff.mp hmem).2 hE

set_option maxRecDepth 40000 in
theorem auditor_reconciliation_witness :
    "53000" ∉ missingList {"53000"} ∅ :=
  (auditor_reconciliation {"53000"} ∅).2.2.2.2 "53000" (by decide) (by decide)

/-- Claim C8: normalization (strip, then zero-pad to width 5) maps an
already-normalized 5-character digit string to itself, so applying it
twice is the same as applying it once. -/
theorem normalizeId_idempotent (s : String) (h5 : s.length = 5)
    (hdig : ∀ c ∈ s.toList, c.isDigit = true) :
    normalizeId s = s ∧ normalizeId (normalizeId s) = normalizeId s := by
  have h1 : normalizeId s = s := by
    rw [normalizeId, pyStrip_of_digits s hdig, pyZfill_of_digits s h5 hdig]
  exact ⟨h1, by rw [h1]; exact h1⟩

theorem normalizeId_idempotent_witness :
    normalizeId "01234" = "01234" ∧
      normalizeId (normalizeId "01234") = normalizeId "01234" :=
  normalizeId_idempotent "01234" (by decide) (by decide)

/-! ## Claim theorems: summarizer opening and main loop -/

/-- Claim C3: opening an existing dataset file succeeds for both formats
and yields its rows: the compressed-text decoder is attempted first, and
on a format mismatch the tool falls back to the plain-text decoder. -/
theorem open_text_transparent (f : DiskFile) : open_text f = f.csv := by
  cases hf : f.format <;> simp [open_text, gzipOpen, hf]

/-- Claim C7: a summarizer target whose path does not exist produces the
label header and a `File not found` notice, the remaining targets are
still processed in order, and the process exit status is 0. -/
theorem summarizer_skips_missing_files (pre post : List Target) (label path : String) :
    summarizeMain (pre ++ (label, path, none) :: post) =
      ((summarizeMain pre).1 ++
        ("=== " ++ label ++ " ===") :: ("File not found: " ++ path) :: "" ::
          (summarizeMain post).1, 0) := by
  simp [summarizeMain, summarizeTarget]

/-- Claim C2: when both loads succeed, the auditor exits 0 exactly when
`missing` is empty and 1 exactly when it is not; the exit status is a
function of `missing` alone, so a non-empty `unexpected_present` (which
only adds a warning line) never changes it. -/
theorem auditor_exit_contract (w : World) (R F : Finset String)
    (href : load_reference_ids w.refPath w.refFile = .ok R)
    (hfc : load_forecast_ids w.forecastPath w.forecastFile = .ok F) :
    (auditMain w).exitCode = (if missingList R F = [] then 0 else 1) ∧
    ((auditMain w).exitCode = 0 ↔ missingList R F = []) ∧
    ((auditMain w).exitCode = 1 ↔ missingList R F ≠ []) := by
  by_cases hm : missingList R F = [] <;>
    simp [auditMain, href, hfc, hm]

def refFileEx : CsvFile := ⟨some ["CUMUN"], [[("CUMUN", "1")]]⟩

def fcFileEx : CsvFile := ⟨some ["municipio_id"], [[("municipio_id", "00001")]]⟩

def worldEx : World := ⟨"ref.csv.gz", some refFileEx, "fc.csv", some fcFileEx⟩

theorem auditor_exit_contract_witness :
    (auditMain worldEx).exitCode = 0 ↔ missingList {"00001"} {"00001"} = [] :=
  (auditor_exit_contract worldEx {"00001"} {"00001"} rfl rfl).2.1

/-- Claim C4: when the reference file is missing or its header lacks the
`CUMUN` column, the auditor exits with status 2, prints nothing to
standard output (in particular no count lines), and its outcome does not
depend on the forecast file, which is never read. -/
theorem auditor_bad_reference_fatal (w : World) (h : refFileBad w.refFile = true) :
    (auditMain w).exitCode = 2 ∧ (auditMain w).stdout = [] ∧
    ∀ p g, auditMain ⟨w.refPath, w.refFile, p, g⟩ = auditMain w := by
  rcases w with ⟨rp, rf, fp, ff⟩
  cases rf with
  | none => exact ⟨rfl, rfl, fun p g => rfl⟩
  | some f =>
      rcases f with ⟨fns, rows⟩
      cases fns with
      | none => exact ⟨rfl, rfl, fun p g => rfl⟩
      | some names =>
          have hcu : ¬ ("CUMUN" ∈ names) := by
            simp only [refFileBad] at h
            by_cases hn : "CUMUN" ∈ names
            · rw [if_pos hn] at h; exact absurd h (by decide)
            · exact hn
          refine ⟨?_, ?_, fun p g => ?_⟩ <;>
            simp [auditMain, load_reference_ids, hcu]

theorem auditor_bad_reference_fatal_witness :
    (auditMain ⟨"ref.csv.gz", none, "fc.csv", none⟩).exitCode = 2 :=
  (auditor_bad_reference_fatal ⟨"ref.csv.gz", none, "fc.csv", none⟩ rfl).1

/-! ## Supporting definitions for the summarizer claims -/

/-- The truthy values of column `col` over the rows, in row order. -/
def truthyVals (col : String) (rows : List Row) : List String :=
  rows.filterMap (fun r => truthy (rowGet r col))

/-- Row `r` carries day `d`: its `date_col` value is truthy and `dayOf`
maps it to `d`. -/
def onDay (date_col : String) (dayOf : String → String) (d : String) (r : Row) : Prop :=
  (truthy (rowGet r date_col)).map dayOf = some d

instance (date_col : String) (dayOf : String → String) (d : String) (r : Row) :
    Decidable (onDay date_col dayOf d r) :=
  inferInstanceAs (Decidable ((truthy (rowGet r date_col)).map dayOf = some d))

/-- The number of rows carrying day `d`. -/
def matchCount (date_col : String) (dayOf : String → String) (d : String)
    (rows : List Row) : Nat :=
  rows.countP (fun r => decide (onDay date_col dayOf d r))

/-- The station values (possibly absent) of the rows carrying day `d`. -/
def stationsOn (date_col station_col : String) (dayOf : String → String) (d : String)
    (rows : List Row) : List (Option String) :=
  rows.filterMap (fun r =>
    match truthy (rowGet r date_col) with
    | none => none
    | some v => if dayOf v = d then some (rowGet r station_col) else none)

/-- Sum of the values of a string-keyed dict of counts. -/
def sumValues (l : List (String × Nat)) : Nat := (l.map (fun p => p.2)).sum

/-- `o` is the lexicographic minimum of the list `l` (`none` iff `l` is
empty). -/
def isMinOf (o : Option String) (l : List String) : Prop :=
  (o = none ↔ l = []) ∧ ∀ m, o = some m → m ∈ l ∧ ∀ d ∈ l, m ≤ d

/-- `o` is the lexicographic maximum of the list `l`. -/
def isMaxOf (o : Option String) (l : List String) : Prop :=
  (o = none ↔ l = []) ∧ ∀ m, o = some m → m ∈ l ∧ ∀ d ∈ l, d ≤ m

/-! ## Supporting lemmas: dicts -/

theorem dictGet_dictUpd {β : Type} (l : List (String × β)) (k k' : String)
    (f : β → β) (dflt : β) :
    dictGet (dictUpd l k f dflt) k' dflt =
      if k' = k then f (dictGet l k dflt) else dictGet l k' dflt := by
  induction l with
  | nil =>
      by_cases h : k' = k <;> simp [dictUpd, dictGet, h]
  | cons p rest ih =>
      rcases p with ⟨k₀, v⟩
      by_cases h0 : k = k₀
      · subst h0
        by_cases h : k' = k <;> simp [dictUpd, dictGet, h]
      · by_cases h : k' = k₀
        · subst h
          have : ¬ k' = k := fun hc => h0 (hc ▸ rfl)
          simp [dictUpd, dictGet, h0, this]
        · simp [dictUpd, dictGet, h0, h, ih]

theorem dictGet_map {β γ : Type} (l : List (String × β)) (g : β → γ)
    (k : String) (dflt : β) :
    dictGet (l.map (fun p => (p.1, g p.2))) k (g dflt) = g (dictGet l k dflt) := by
  induction l with
  | nil => simp [dictGet]
  | cons p rest ih =>
      by_cases h : k = p.1 <;> simp [dictGet, h, ih]

/-! ## Supporting lemmas: running minimum and maximum -/

theorem minFold_isSome (l : List String) : ∀ m, ∃ r, l.foldl pyMinFold (some m) = some r := by
  induction l with
  | nil => exact fun m => ⟨m, rfl⟩
  | cons d l ih => exact fun m => ih (if pyLt d m then d else m)

theorem minFold_spec (l : List String) : ∀ m r, l.foldl pyMinFold (some m) = some r →
    (r = m ∨ r ∈ l) ∧ r ≤ m ∧ ∀ d ∈ l, r ≤ d := by
  induction l with
  | nil =>
      intro m r h
      cases h
      exact ⟨Or.inl rfl, le_refl _, by intro d hd; cases hd⟩
  | cons d l ih =>
      intro m r h
      rw [List.foldl_cons] at h
      obtain ⟨hmem, hle, hall⟩ := ih (if pyLt d m then d else m) r h
      have hcase : (if pyLt d m then d else m) ≤ m ∧ (if pyLt d m then d else m) ≤ d := by
        by_cases hd : pyLt d m = true
        · rw [if_pos hd]
          exact ⟨le_of_lt ((pyLt_iff d m).mp hd), le_refl d⟩
        · rw [if_neg (by simpa using hd)]
          exact ⟨le_refl m, (pyLt_eq_false_iff d m).mp (by simpa using hd)⟩
      refine ⟨?_, le_trans hle hcase.1, ?_⟩
      · rcases hmem with hm | hm
        · by_cases hd : pyLt d m = true
          · rw [if_pos hd] at hm; exact Or.inr (hm ▸ List.mem_cons_self d l)
          · rw [if_neg (by simpa using hd)] at hm; exact Or.inl hm
        · exact Or.inr (List.mem_cons_of_mem d hm)
      · intro x hx
        rcases List.mem_cons.mp hx with hx | hx
        · exact hx ▸ le_trans hle hcase.2
        · exact hall x hx

theorem minFold_isMin (l : List String) : isMinOf (l.foldl pyMinFold none) l := by
  cases l with
  | nil => exact ⟨by simp, fun m hm => by cases hm⟩
  | cons d l =>
      rw [List.foldl_cons]
      constructor
      · obtain ⟨r, hr⟩ := minFold_isSome l d
        constructor
        · intro h
          rw [show pyMinFold none d = some d from rfl, hr] at h
          cases h
        · intro h; cases h
      · intro m hm
        rw [show pyMinFold none d = some d from rfl] at hm
        obtain ⟨hmem, hle, hall⟩ := minFold_spec l d m hm
        refine ⟨?_, ?_⟩
        · rcases hmem with hm' | hm'
          · exact hm' ▸ List.mem_cons_self d l
          · exact List.mem_cons_of_mem d hm'
        · intro x hx
          rcases List.mem_cons.mp hx with hx | hx
          · exact hx ▸ hle
          · exact hall x hx

theorem maxFold_isSome (l : List String) : ∀ m, ∃ r, l.foldl pyMaxFold (some m) = some r := by
  induction l with
  | nil => exact fun m => ⟨m, rfl⟩
  | cons d l ih => exact fun m => ih (if pyLt m d then d else m)

theorem maxFold_spec (l : List String) : ∀ m r, l.foldl pyMaxFold (some m) = some r →
    (r = m ∨ r ∈ l) ∧ m ≤ r ∧ ∀ d ∈ l, d ≤ r := by
  induction l with
  | nil =>
      intro m r h
      cases h
      exact ⟨Or.inl rfl, le_refl _, by intro d hd; cases hd⟩
  | cons d l ih =>
      intro m r h
      rw [List.foldl_cons] at h
      obtain ⟨hmem, hle, hall⟩ := ih (if pyLt m d then d else m) r h
      have hcase : m ≤ (if pyLt m d then d else m) ∧ d ≤ (if pyLt m d then d else m) := by
        by_cases hd : pyLt m d = true
        · rw [if_pos hd]
          exact ⟨le_of_lt ((pyLt_iff m d).mp hd), le_refl d⟩
        · rw [if_neg (by simpa using hd)]
          exact ⟨le_refl m, (pyLt_eq_false_iff m d).mp (by simpa using hd)⟩
      refine ⟨?_, le_trans hcase.1 hle, ?_⟩
      · rcases hmem with hm | hm
        · by_cases hd : pyLt m d = true
          · rw [if_pos hd] at hm; exact Or.inr (hm ▸ List.mem_cons_self d l)
          · rw [if_neg (by simpa using hd)] at hm; exact Or.inl hm
        · exact Or.inr (List.mem_cons_of_mem d hm)
      · intro x hx
        rcases List.mem_cons.mp hx with hx | hx
        · exact hx ▸ le_trans hcase.2 hle
        · exact hall x hx

theorem maxFold_isMax (l : List String) : isMaxOf (l.foldl pyMaxFold none) l := by
  cases l with
  | nil => exact ⟨by simp, fun m hm => by cases hm⟩
  | cons d l =>
      rw [List.foldl_cons]
      constructor
      · obtain ⟨r, hr⟩ := maxFold_isSome l d
        constructor
        · intro h
          rw [show pyMaxFold none d = some d from rfl, hr] at h
          cases h
        · intro h; cases h
      · intro m hm
        rw [show pyMaxFold none d = some d from rfl] at hm
        obtain ⟨hmem, hle, hall⟩ := maxFold_spec l d m hm
        refine ⟨?_, ?_⟩
        · rcases hmem with hm' | hm'
          · exact hm' ▸ List.mem_cons_self d l
          · exact List.mem_cons_of_mem d hm'
        · intro x hx
          rcases List.mem_cons.mp hx with hx | hx
          · exact hx ▸ hle
          · exact hall x hx

/-! ## Supporting lemmas: set-fold -/

theorem mem_foldl_insert {α : Type} [DecidableEq α] (l : List α) :
    ∀ (init : Finset α) (x : α),
      x ∈ l.foldl (fun s a => insert a s) init ↔ x ∈ init ∨ x ∈ l := by
  induction l with
  | nil => intro init x; simp
  | cons a l ih =>
      intro init x
      rw [List.foldl_cons, ih (insert a init) x, Finset.mem_insert, List.mem_cons]
      tauto

theorem card_foldl_insert {α : Type} [DecidableEq α] (l : List α) :
    ∀ init : Finset α,
      (l.foldl (fun s a => insert a s) init).card ≤ init.card + l.length := by
  induction l with
  | nil => intro init; simp
  | cons a l ih =>
      intro init
      rw [List.foldl_cons, List.length_cons]
      calc (l.foldl (fun s a => insert a s) (insert a init)).card
          ≤ (insert a init).card + l.length := ih (insert a init)
        _ ≤ init.card + 1 + l.length := Nat.add_le_add_right (Finset.card_insert_le a init) _
        _ = init.card + (l.length + 1) := by omega

/-! ## Supporting lemmas: station scans -/

theorem stationStep_rows (dc sc : String) (dayOf : String → String)
    (st : StationState) (r : Row) :
    (stationStep dc sc dayOf st r).rows = st.rows + 1 := by
  cases h : truthy (rowGet r dc) <;> simp [stationStep, h]

theorem stationStep_min (dc sc : String) (dayOf : String → String)
    (st : StationState) (r : Row) :
    (stationStep dc sc dayOf st r).min_val =
      (match truthy (rowGet r dc) with
        | none => st.min_val
        | some v => pyMinFold st.min_val v) := by
  cases h : truthy (rowGet r dc) <;> simp [stationStep, h]

theorem stationStep_max (dc sc : String) (dayOf : String → String)
    (st : StationState) (r : Row) :
    (stationStep dc sc dayOf st r).max_val =
      (match truthy (rowGet r dc) with
        | none => st.max_val
        | some v => pyMaxFold st.max_val v) := by
  cases h : truthy (rowGet r dc) <;> simp [stationStep, h]

theorem stationStep_perDay (dc sc : String) (dayOf : String → String)
    (st : StationState) (r : Row) (d : String) :
    dictGet (stationStep dc sc dayOf st r).per_day d ∅ =
      (match truthy (rowGet r dc) with
        | none => dictGet st.per_day d ∅
        | some v =>
            if dayOf v = d then insert (rowGet r sc) (dictGet st.per_day d ∅)
            else dictGet st.per_day d ∅) := by
  cases h : truthy (rowGet r dc) with
  | none => simp [stationStep, h]
  | some v =>
      by_cases hd : dayOf v = d
      · simp [stationStep, h, dictGet_dictUpd, hd]
      · have hd' : ¬ d = dayOf v := fun hc => hd hc.symm
        simp [stationStep, h, dictGet_dictUpd, hd, hd']

theorem stationFold_rows (dc sc : String) (dayOf : String → String) (rows : List Row) :
    ∀ st : StationState,
      (rows.foldl (stationStep dc sc dayOf) st).rows = st.rows + rows.length := by
  induction rows with
  | nil => intro st; simp
  | cons r rows ih =>
      intro st
      rw [List.foldl_cons, ih, stationStep_rows, List.length_cons]
      omega

theorem stationFold_min (dc sc : String) (dayOf : String → String) (rows : List Row) :
    ∀ st : StationState,
      (rows.foldl (stationStep dc sc dayOf) st).min_val =
        (truthyVals dc rows).foldl pyMinFold st.min_val := by
  induction rows with
  | nil => intro st; rfl
  | cons r rows ih =>
      intro st
      rw [List.foldl_cons, ih]
      cases h : truthy (rowGet r dc)
      · rw [show truthyVals dc (r :: rows) = truthyVals dc rows by
          simp [truthyVals, List.filterMap_cons, h]]
        rw [stationStep_min, h]
      · rename_i v
        rw [show truthyVals dc (r :: rows) = v :: truthyVals dc rows by
          simp [truthyVals, List.filterMap_cons, h]]
        rw [List.foldl_cons, stationStep_min, h]

theorem stationFold_max (dc sc : String) (dayOf : String → String) (rows : List Row) :
    ∀ st : StationState,
      (rows.foldl (stationStep dc sc dayOf) st).max_val =
        (truthyVals dc rows).foldl pyMaxFold st.max_val := by
  induction rows with
  | nil => intro st; rfl
  | cons r rows ih =>
      intro st
      rw [List.foldl_cons, ih]
      cases h : truthy (rowGet r dc)
      · rw [show truthyVals dc (r :: rows) = truthyVals dc rows by
          simp [truthyVals, List.filterMap_cons, h]]
        rw [stationStep_max, h]
      · rename_i v
        rw [show truthyVals dc (r :: rows) = v :: truthyVals dc rows by
          simp [truthyVals, List.filterMap_cons, h]]
        rw [List.foldl_cons, stationStep_max, h]

theorem stationFold_perDay (dc sc : String) (dayOf : String → String) (d : String)
    (rows : List Row) :
    ∀ st : StationState,
      dictGet (rows.foldl (stationStep dc sc dayOf) st).per_day d ∅ =
        (stationsOn dc sc dayOf d rows).foldl (fun s x => insert x s)
          (dictGet st.per_day d ∅) := by
  induction rows with
  | nil => intro st; rfl
  | cons r rows ih =>
      intro st
      rw [List.foldl_cons, ih]
      cases h : truthy (rowGet r dc)
      · rw [show stationsOn dc sc dayOf d (r :: rows) = stationsOn dc sc dayOf d rows by
          simp [stationsOn, List.filterMap_cons, h]]
        rw [stationStep_perDay, h]
      · rename_i v
        by_cases hd : dayOf v = d
        · rw [show stationsOn dc sc dayOf d (r :: rows)
              = rowGet r sc :: stationsOn dc sc dayOf d rows by
            simp [stationsOn, List.filterMap_cons, h, hd]]
          rw [List.foldl_cons, stationStep_perDay, h]
          simp [hd]
        · rw [show stationsOn dc sc dayOf d (r :: rows) = stationsOn dc sc dayOf d rows by
            simp [stationsOn, List.filterMap_cons, h, hd]]
          rw [stationStep_perDay, h]
          simp [hd]

theorem stationsOn_length (dc sc : String) (dayOf : String → String) (d : String)
    (rows : List Row) :
    (stationsOn dc sc dayOf d rows).length = matchCount dc dayOf d rows := by
  induction rows with
  | nil => rfl
  | cons r rows ih =>
      rw [stationsOn, List.filterMap_cons, matchCount, List.countP_cons]
      cases h : truthy (rowGet r dc)
      · have hp : decide (onDay dc dayOf d r) = false := by simp [onDay, h]
        simp only [h, hp, if_false, Nat.add_zero]
        exact ih
      · rename_i v
        by_cases hd : dayOf v = d
        · have hp : decide (onDay dc dayOf d r) = true := by simp [onDay, h, hd]
          simp only [h, hd, if_pos rfl, hp, if_true, List.length_cons]
          exact congrArg (· + 1) ih
        · have hp : decide (onDay dc dayOf d r) = false := by simp [onDay, h, hd]
          simp only [h, hp, if_neg hd, if_false, Nat.add_zero]
          exact ih

theorem mem_stationsOn (dc sc : String) (dayOf : String → String) (d : String)
    (rows : List Row) (x : Option String) :
    x ∈ stationsOn dc sc dayOf d rows ↔
      ∃ r ∈ rows, onDay dc dayOf d r ∧ rowGet r sc = x := by
  rw [stationsOn, List.mem_filterMap]
  constructor
  · rintro ⟨r, hr, hx⟩
    refine ⟨r, hr, ?_⟩
    cases h : truthy (rowGet r dc) with
    | none => simp [h] at hx
    | some v =>
        simp only [h] at hx
        by_cases hd : dayOf v = d
        · rw [if_pos hd] at hx
          exact ⟨by simp [onDay, h, hd], Option.some.inj hx⟩
        · rw [if_neg hd] at hx; cases hx
  · rintro ⟨r, hr, hday, hsc⟩
    refine ⟨r, hr, ?_⟩
    rcases Option.map_eq_some'.mp hday with ⟨v, hv, hvd⟩
    simp only [hv]
    rw [if_pos hvd, hsc]

/-! ## Supporting lemmas: forecast scan -/

theorem forecastStep_rows (st : ForecastState) (r : Row) :
    (forecastStep st r).rows = st.rows + 1 := by
  cases h1 : truthy (rowGet r "fecha") <;> cases h2 : truthy (rowGet r "collected_at") <;>
    simp [forecastStep, h1, h2]

theorem forecastStep_min (st : ForecastState) (r : Row) :
    (forecastStep st r).min_date =
      (match truthy (rowGet r "fecha") with
        | none => st.min_date
        | some v => pyMinFold st.min_date v) := by
  cases h1 : truthy (rowGet r "fecha") <;> cases h2 : truthy (rowGet r "collected_at") <;>
    simp [forecastStep, h1, h2]

theorem forecastStep_max (st : ForecastState) (r : Row) :
    (forecastStep st r).max_date =
      (match truthy (rowGet r "fecha") with
        | none => st.max_date
        | some v => pyMaxFold st.max_date v) := by
  cases h1 : truthy (rowGet r "fecha") <;> cases h2 : truthy (rowGet r "collected_at") <;>
    simp [forecastStep, h1, h2]

theorem forecastStep_ca (st : ForecastState) (r : Row) :
    (forecastStep st r).collected_at =
      (match truthy (rowGet r "collected_at") with
        | none => st.collected_at
        | some ca => pyMaxFold st.collected_at ca) := by
  cases h1 : truthy (rowGet r "fecha") <;> cases h2 : truthy (rowGet r "collected_at") <;>
    simp [forecastStep, h1, h2]

theorem forecastStep_perDay (st : ForecastState) (r : Row) (d : String) :
    dictGet (forecastStep st r).per_day d 0 =
      dictGet st.per_day d 0 +
        (if onDay "fecha" (fun v => v) d r then 1 else 0) := by
  cases h1 : truthy (rowGet r "fecha") with
  | none =>
      have hp : ¬ onDay "fecha" (fun v => v) d r := by simp [onDay, h1]
      cases h2 : truthy (rowGet r "collected_at") <;>
        simp [forecastStep, h1, h2, hp]
  | some v =>
      by_cases hd : v = d
      · have hp : onDay "fecha" (fun v => v) d r := by simp [onDay, h1, hd]
        have hpv : onDay "fecha" (fun v => v) v r := by simp [onDay, h1]
        have hd' : d = v := hd.symm
        cases h2 : truthy (rowGet r "collected_at") <;>
          simp [forecastStep, h1, h2, hp, hpv, dictGet_dictUpd, hd']
      · have hp : ¬ onDay "fecha" (fun v => v) d r := by simp [onDay, h1, hd]
        have hd' : ¬ d = v := fun hc => hd hc.symm
        cases h2 : truthy (rowGet r "collected_at") <;>
          simp [forecastStep, h1, h2, hp, dictGet_dictUpd, hd']

theorem forecastFold_rows (rows : List Row) :
    ∀ st : ForecastState, (rows.foldl forecastStep st).rows = st.rows + rows.length := by
  induction rows with
  | nil => intro st; simp
  | cons r rows ih =>
      intro st
      rw [List.foldl_cons, ih, forecastStep_rows, List.length_cons]
      omega

theorem forecastFold_min (rows : List Row) :
    ∀ st : ForecastState,
      (rows.foldl forecastStep st).min_date =
        (truthyVals "fecha" rows).foldl pyMinFold st.min_date := by
  induction rows with
  | nil => intro st; rfl
  | cons r rows ih =>
      intro st
      rw [List.foldl_cons, ih]
      cases h : truthy (rowGet r "fecha")
      · rw [show truthyVals "fecha" (r :: rows) = truthyVals "fecha" rows by
          simp [truthyVals, List.filterMap_cons, h]]
        rw [forecastStep_min, h]
      · rename_i v
        rw [show truthyVals "fecha" (r :: rows) = v :: truthyVals "fecha" rows by
          simp [truthyVals, List.filterMap_cons, h]]
        rw [List.foldl_cons, forecastStep_min, h]

theorem forecastFold_max (rows : List Row) :
    ∀ st : ForecastState,
      (rows.foldl forecastStep st).max_date =
        (truthyVals "fecha" rows).foldl pyMaxFold st.max_date := by
  induction rows with
  | nil => intro st; rfl
  | cons r rows ih =>
      intro st
      rw [List.foldl_cons, ih]
      cases h : truthy (rowGet r "fecha")
      · rw [show truthyVals "fecha" (r :: rows) = truthyVals "fecha" rows by
          simp [truthyVals, List.filterMap_cons, h]]
        rw [forecastStep_max, h]
      · rename_i v
        rw [show truthyVals "fecha" (r :: rows) = v :: truthyVals "fecha" rows by
          simp [truthyVals, List.filterMap_cons, h]]
        rw [List.foldl_cons, forecastStep_max, h]

theorem forecastFold_ca (rows : List Row) :
    ∀ st : ForecastState,
      (rows.foldl forecastStep st).collected_at =
        (truthyVals "collected_at" rows).foldl pyMaxFold st.collected_at := by
  induction rows with
  | nil => intro st; rfl
  | cons r rows ih =>
      intro st
      rw [List.foldl_cons, ih]
      cases h : truthy (rowGet r "collected_at")
      · rw [show truthyVals "collected_at" (r :: rows) = truthyVals "collected_at" rows by
          simp [truthyVals, List.filterMap_cons, h]]
        rw [forecastStep_ca, h]
      · rename_i ca
        rw [show truthyVals "collected_at" (r :: rows)
            = ca :: truthyVals "collected_at" rows by
          simp [truthyVals, List.filterMap_cons, h]]
        rw [List.foldl_cons, forecastStep_ca, h]

theorem forecastFold_perDay (d : String) (rows : List Row) :
    ∀ st : ForecastState,
      dictGet (rows.foldl forecastStep st).per_day d 0 =
        dictGet st.per_day d 0 + matchCount "fecha" (fun v => v) d rows := by
  induction rows with
  | nil => intro st; simp [matchCount]
  | cons r rows ih =>
      intro st
      have hmc : matchCount "fecha" (fun v => v) d (r :: rows)
          = matchCount "fecha" (fun v => v) d rows
            + (if onDay "fecha" (fun v => v) d r then 1 else 0) := by
        by_cases hp : onDay "fecha" (fun v => v) d r <;>
          simp [matchCount, List.countP_cons, hp]
      rw [List.foldl_cons, ih, forecastStep_perDay, hmc]
      omega

/-! ## Claim theorems: summarizer scans -/

theorem mem_scan_perDay (dc sc : String) (dayOf : String → String) (d : String)
    (rows : List Row) (x : Option String) :
    x ∈ dictGet (stationScan dc sc dayOf rows).per_day d ∅ ↔
      ∃ r ∈ rows, onDay dc dayOf d r ∧ rowGet r sc = x := by
  rw [stationScan, stationFold_perDay, mem_foldl_insert]
  rw [show dictGet ((⟨[], none, none, 0⟩ : StationState)).per_day d ∅ = ∅ from rfl]
  simp [mem_stationsOn]

/-- Claim C5: for a forecast-kind file, each day's reported value is the
number of rows bearing that date (a row count); `min_date` / `max_date`
are the lexicographic minimum / maximum of the truthy date values, and
`latest_collected_at` is the lexicographic maximum of the truthy
`collected_at` values. -/
theorem forecast_summary_correct (f : DiskFile) :
    (∀ d, dictGet (summarise_forecast f).per_day_rows d 0
        = matchCount "fecha" (fun v => v) d (open_text f).rows) ∧
    isMinOf (summarise_forecast f).min_date (truthyVals "fecha" (open_text f).rows) ∧
    isMaxOf (summarise_forecast f).max_date (truthyVals "fecha" (open_text f).rows) ∧
    isMaxOf (summarise_forecast f).latest_collected_at
      (truthyVals "collected_at" (open_text f).rows) := by
  refine ⟨?_, ?_, ?_, ?_⟩
  · intro d
    show dictGet (forecastScan (open_text f).rows).per_day d 0 = _
    rw [forecastScan, forecastFold_perDay]
    simp [dictGet]
  · show isMinOf (forecastScan (open_text f).rows).min_date _
    rw [forecastScan, forecastFold_min]
    exact minFold_isMin _
  · show isMaxOf (forecastScan (open_text f).rows).max_date _
    rw [forecastScan, forecastFold_max]
    exact maxFold_isMax _
  · show isMaxOf (forecastScan (open_text f).rows).collected_at _
    rw [forecastScan, forecastFold_ca]
    exact maxFold_isMax _

/-- The example forecast file of the claim: three rows dated 2024-01-01
and one dated 2024-01-02. -/
def forecastFileEx : DiskFile :=
  ⟨.plain, ⟨some ["fecha", "collected_at"],
    [[("fecha", "2024-01-01")], [("fecha", "2024-01-01")], [("fecha", "2024-01-01")],
     [("fecha", "2024-01-02")]]⟩⟩

theorem forecast_summary_correct_witness :
    dictGet (summarise_forecast forecastFileEx).per_day_rows "2024-01-01" 0 = 3 ∧
    dictGet (summarise_forecast forecastFileEx).per_day_rows "2024-01-02" 0 = 1 ∧
    "2024-01-01" ∈ truthyVals "fecha" (open_text forecastFileEx).rows ∧
    ∀ d ∈ truthyVals "fecha" (open_text forecastFileEx).rows, "2024-01-01" ≤ d := by
  have h := forecast_summary_correct forecastFileEx
  obtain ⟨hmem, hall⟩ := h.2.1.2 "2024-01-01" (by decide)
  exact ⟨(h.1 "2024-01-01").trans (by decide), (h.1 "2024-01-02").trans (by decide),
    hmem, hall⟩

/-- Claim C6: per-day distinct-key counts never exceed the number of rows
carrying that day, and whenever both ends of a date/timestamp range are
defined, the minimum is lexicographically at most the maximum (daily,
hourly and forecast kinds alike). -/
theorem summary_invariants (f : DiskFile) (date_col station_col d : String) :
    dictGet (summarise_daily_file f date_col station_col).per_day_counts d 0
        ≤ matchCount date_col (fun v => v) d (open_text f).rows ∧
    dictGet (summarise_hourly_file f).per_day_counts d 0
        ≤ matchCount "fint" (fun v => pySlice v 10) d (open_text f).rows ∧
    (∀ m M, (summarise_daily_file f date_col station_col).min_date = some m →
        (summarise_daily_file f date_col station_col).max_date = some M → m ≤ M) ∧
    (∀ m M, (summarise_hourly_file f).min_ts = some m →
        (summarise_hourly_file f).max_ts = some M → m ≤ M) ∧
    (∀ m M, (summarise_forecast f).min_date = some m →
        (summarise_forecast f).max_date = some M → m ≤ M) := by
  have hcard : ∀ (dc sc : String) (dayOf : String → String),
      (dictGet (stationScan dc sc dayOf (open_text f).rows).per_day d ∅).card
        ≤ matchCount dc dayOf d (open_text f).rows := by
    intro dc sc dayOf
    rw [stationScan, stationFold_perDay]
    calc ((stationsOn dc sc dayOf d (open_text f).rows).foldl (fun s x => insert x s)
            (dictGet ((⟨[], none, none, 0⟩ : StationState)).per_day d ∅)).card
        ≤ (dictGet ((⟨[], none, none, 0⟩ : StationState)).per_day d ∅).card
            + (stationsOn dc sc dayOf d (open_text f).rows).length :=
          card_foldl_insert _ _
      _ = matchCount dc dayOf d (open_text f).rows := by
          rw [stationsOn_length]
          simp [dictGet]
  have hminmax : ∀ (dc sc : String) (dayOf : String → String) (m M : String),
      (stationScan dc sc dayOf (open_text f).rows).min_val = some m →
      (stationScan dc sc dayOf (open_text f).rows).max_val = some M → m ≤ M := by
    intro dc sc dayOf m M hm hM
    rw [stationScan, stationFold_min] at hm
    rw [stationScan, stationFold_max] at hM
    obtain ⟨hmem, _⟩ := (minFold_isMin (truthyVals dc (open_text f).rows)).2 m hm
    exact ((maxFold_isMax (truthyVals dc (open_text f).rows)).2 M hM).2 m hmem
  refine ⟨?_, ?_, ?_, ?_, ?_⟩
  · show (dictGet ((stationScan date_col station_col (fun v => v)
        (open_text f).rows).per_day.map (fun p => (p.1, p.2.card))) d 0) ≤ _
    rw [show (0 : Nat) = (∅ : Finset (Option String)).card from rfl, dictGet_map]
    exact hcard date_col station_col (fun v => v)
  · show (dictGet ((stationScan "fint" "idema" (fun v => pySlice v 10)
        (open_text f).rows).per_day.map (fun p => (p.1, p.2.card))) d 0) ≤ _
    rw [show (0 : Nat) = (∅ : Finset (Option String)).card from rfl, dictGet_map]
    exact hcard "fint" "idema" (fun v => pySlice v 10)
  · exact hminmax date_col station_col (fun v => v)
  · exact hminmax "fint" "idema" (fun v => pySlice v 10)
  · intro m M hm hM
    have hm' : (forecastScan (open_text f).rows).min_date = some m := hm
    have hM' : (forecastScan (open_text f).rows).max_date = some M := hM
    rw [forecastScan, forecastFold_min] at hm'
    rw [forecastScan, forecastFold_max] at hM'
    obtain ⟨hmem, _⟩ := (minFold_isMin (truthyVals "fecha" (open_text f).rows)).2 m hm'
    exact ((maxFold_isMax (truthyVals "fecha" (open_text f).rows)).2 M hM').2 m hmem

/-- Example daily file: two dated rows for the invariant witness. -/
def dailyFileEx : DiskFile :=
  ⟨.gzipped, ⟨some ["fecha", "indicativo"],
    [[("fecha", "2024-01-02"), ("indicativo", "X1")],
     [("fecha", "2024-01-01"), ("indicativo", "X2")]]⟩⟩

theorem summary_invariants_witness :
    dictGet (summarise_daily_file dailyFileEx "fecha" "indicativo").per_day_counts
        "2024-01-01" 0
      ≤ matchCount "fecha" (fun v => v) "2024-01-01" (open_text dailyFileEx).rows ∧
    ("2024-01-01" : String) ≤ "2024-01-02" := by
  have h := summary_invariants dailyFileEx "fecha" "indicativo" "2024-01-01"
  exact ⟨h.1, h.2.2.1 "2024-01-01" "2024-01-02" (by decide) (by decide)⟩

/-- Claim C9: a row with a truthy date but a missing or empty station
value (`none` for an absent column, `some ""` for an empty cell — the
code's `add(station_val)` distinguishes the two and skips neither) still
contributes that absent value to the day's distinct-key set, so a day all
of whose rows lack station values (uniformly missing, or uniformly empty)
reports a distinct-key count of 1, not 0 — in the daily and in the hourly
scan alike. -/
theorem missing_station_counted (f : DiskFile) (date_col station_col d : String) :
    (∀ x : Option String, x = none ∨ x = some "" →
      (∃ r ∈ (open_text f).rows, onDay date_col (fun v => v) d r ∧
          rowGet r station_col = x) →
      x ∈ dictGet (stationScan date_col station_col (fun v => v)
        (open_text f).rows).per_day d ∅) ∧
    (∀ x : Option String, x = none ∨ x = some "" →
      ((∃ r ∈ (open_text f).rows, onDay date_col (fun v => v) d r) ∧
        (∀ r ∈ (open_text f).rows, onDay date_col (fun v => v) d r →
          rowGet r station_col = x)) →
      dictGet (summarise_daily_file f date_col station_col).per_day_counts d 0 = 1) ∧
    (∀ x : Option String, x = none ∨ x = some "" →
      (∃ r ∈ (open_text f).rows, onDay "fint" (fun v => pySlice v 10) d r ∧
          rowGet r "idema" = x) →
      x ∈ dictGet (stationScan "fint" "idema" (fun v => pySlice v 10)
        (open_text f).rows).per_day d ∅) ∧
    (∀ x : Option String, x = none ∨ x = some "" →
      ((∃ r ∈ (open_text f).rows, onDay "fint" (fun v => pySlice v 10) d r) ∧
        (∀ r ∈ (open_text f).rows, onDay "fint" (fun v => pySlice v 10) d r →
          rowGet r "idema" = x)) →
      dictGet (summarise_hourly_file f).per_day_counts d 0 = 1) := by
  have hmem : ∀ (dc sc : String) (dayOf : String → String) (x : Option String),
      (∃ r ∈ (open_text f).rows, onDay dc dayOf d r ∧ rowGet r sc = x) →
        x ∈ dictGet (stationScan dc sc dayOf (open_text f).rows).per_day d ∅ := by
    intro dc sc dayOf x hex
    exact (mem_scan_perDay dc sc dayOf d (open_text f).rows x).mpr hex
  have hone : ∀ (dc sc : String) (dayOf : String → String) (x : Option String),
      ((∃ r ∈ (open_text f).rows, onDay dc dayOf d r) ∧
        (∀ r ∈ (open_text f).rows, onDay dc dayOf d r → rowGet r sc = x)) →
      (dictGet (stationScan dc sc dayOf (open_text f).rows).per_day d ∅).card = 1 := by
    intro dc sc dayOf x ⟨⟨r, hr, hday⟩, hall⟩
    have hset : dictGet (stationScan dc sc dayOf (open_text f).rows).per_day d ∅
        = {x} := by
      apply Finset.eq_singleton_iff_unique_mem.mpr
      constructor
      · exact hmem dc sc dayOf x ⟨r, hr, hday, hall r hr hday⟩
      · intro y hy
        obtain ⟨r', hr', hday', hsc'⟩ :=
          (mem_scan_perDay dc sc dayOf d (open_text f).rows y).mp hy
        rw [← hsc']
        exact hall r' hr' hday'
    rw [hset]
    exact Finset.card_singleton x
  refine ⟨fun x _ => hmem date_col station_col (fun v => v) x, ?_,
    fun x _ => hmem "fint" "idema" (fun v => pySlice v 10) x, ?_⟩
  · intro x _ hyp
    show (dictGet ((stationScan date_col station_col (fun v => v)
        (open_text f).rows).per_day.map (fun p => (p.1, p.2.card))) d 0) = 1
    rw [show (0 : Nat) = (∅ : Finset (Option String)).card from rfl, dictGet_map]
    exact hone date_col station_col (fun v => v) x hyp
  · intro x _ hyp
    show (dictGet ((stationScan "fint" "idema" (fun v => pySlice v 10)
        (open_text f).rows).per_day.map (fun p => (p.1, p.2.card))) d 0) = 1
    rw [show (0 : Nat) = (∅ : Finset (Option String)).card from rfl, dictGet_map]
    exact hone "fint" "idema" (fun v => pySlice v 10) x hyp

/-- Example daily file whose rows carry a date but no station column. -/
def dailyNoStationEx : DiskFile :=
  ⟨.plain, ⟨some ["fecha"],
    [[("fecha", "2024-01-01")], [("fecha", "2024-01-01")]]⟩⟩

/-- Example daily file whose rows carry a date and an empty station cell. -/
def dailyEmptyStationEx : DiskFile :=
  ⟨.plain, ⟨some ["fecha", "indicativo"],
    [[("fecha", "2024-01-01"), ("indicativo", "")],
     [("fecha", "2024-01-01"), ("indicativo", "")]]⟩⟩

theorem missing_station_counted_witness :
    none ∈ dictGet (stationScan "fecha" "indicativo" (fun v => v)
        (open_text dailyNoStationEx).rows).per_day "2024-01-01" ∅ ∧
    some "" ∈ dictGet (stationScan "fecha" "indicativo" (fun v => v)
        (open_text dailyEmptyStationEx).rows).per_day "2024-01-01" ∅ ∧
    dictGet (summarise_daily_file dailyNoStationEx "fecha" "indicativo").per_day_counts
        "2024-01-01" 0 = 1 ∧
    dictGet (summarise_daily_file dailyEmptyStationEx "fecha" "indicativo").per_day_counts
        "2024-01-01" 0 = 1 := by
  have h1 := missing_station_counted dailyNoStationEx "fecha" "indicativo" "2024-01-01"
  have h2 := missing_station_counted dailyEmptyStationEx "fecha" "indicativo" "2024-01-01"
  exact ⟨h1.1 none (Or.inl rfl) (by decide),
    h2.1 (some "") (Or.inr rfl) (by decide),
    h1.2.1 none (Or.inl rfl) ⟨by decide, by decide⟩,
    h2.2.1 (some "") (Or.inr rfl) ⟨by decide, by decide⟩⟩

/-- Example file with a single row whose date field is absent. -/
def datelessFileEx : DiskFile := ⟨.plain, ⟨some ["x"], [[("x", "y")]]⟩⟩

/-- Claim C10: every row is counted in `rows`, including rows whose date
(or timestamp) value is absent or empty; such rows update no per-day value
and no date min/max, so the reported `rows` can strictly exceed the sum of
all per-day values. -/
theorem rows_count_includes_dateless (f : DiskFile) (date_col station_col : String) :
    (summarise_daily_file f date_col station_col).rows = (open_text f).rows.length ∧
    (summarise_hourly_file f).rows = (open_text f).rows.length ∧
    (summarise_forecast f).rows = (open_text f).rows.length ∧
    (∀ (st : StationState) (r : Row) (dayOf : String → String),
      truthy (rowGet r date_col) = none →
        stationStep date_col station_col dayOf st r = { st with rows := st.rows + 1 }) ∧
    (∀ (st : ForecastState) (r : Row), truthy (rowGet r "fecha") = none →
      (forecastStep st r).per_day = st.per_day ∧
      (forecastStep st r).min_date = st.min_date ∧
      (forecastStep st r).max_date = st.max_date ∧
      (forecastStep st r).rows = st.rows + 1) ∧
    (summarise_daily_file datelessFileEx "fecha" "indicativo").rows >
      sumValues (summarise_daily_file datelessFileEx "fecha" "indicativo").per_day_counts ∧
    (summarise_forecast datelessFileEx).rows >
      sumValues (summarise_forecast datelessFileEx).per_day_rows := by
  refine ⟨?_, ?_, ?_, ?_, ?_, by decide, by decide⟩
  · show (stationScan date_col station_col (fun v => v) (open_text f).rows).rows = _
    rw [stationScan, stationFold_rows]
    simp
  · show (stationScan "fint" "idema" (fun v => pySlice v 10) (open_text f).rows).rows = _
    rw [stationScan, stationFold_rows]
    simp
  · show (forecastScan (open_text f).rows).rows = _
    rw [forecastScan, forecastFold_rows]
    simp
  · intro st r dayOf h
    simp [stationStep, h]
  · intro st r h
    cases h2 : truthy (rowGet r "collected_at") <;>
      simp [forecastStep, h, h2]

theorem rows_count_includes_dateless_witness :
    stationStep "fecha" "indicativo" (fun v => v)
        (⟨[], none, none, 0⟩ : StationState) [("x", "y")]
      = (⟨[], none, none, 1⟩ : StationState) ∧
    (forecastStep (⟨[], none, none, none, 0⟩ : ForecastState) [("x", "y")]).rows = 1 := by
  have h := rows_count_includes_dateless datelessFileEx "fecha" "indicativo"
  exact ⟨h.2.2.2.1 ⟨[], none, none, 0⟩ [("x", "y")] (fun v => v) rfl,
    (h.2.2.2.2.1 ⟨[], none, none, none, 0⟩ [("x", "y")] rfl).2.2.2⟩
